import Mathlib

/-!
Verification development for the mmb market-data pipeline.

Dates are modelled as integers counting days since 1970-01-01 (a Thursday),
so Python's `date.weekday()` (Monday = 0 … Sunday = 6) becomes
`(d + 3) % 7`.  Prices are exact rationals; where the Python code's float
semantics matter (NaN / infinity propagation in the RSI computation) an
explicit extended-value type `FVal` is used.
-/

namespace MMB

/-- Python `date.weekday()`: Monday = 0 … Sunday = 6, for a day count `d`
(days since 1970-01-01, which was a Thursday, weekday 3). -/
def weekday (d : ℤ) : ℤ := (d + 3) % 7

/-- Function `get_latest_trading_day` from `src/data/stock_crawler.py` (and the
identical `_latest_trading_day_date` in `src/data/stock.py`): Saturday maps
to the previous day, Sunday two days back, any weekday to itself. -/
def get_latest_trading_day (today : ℤ) : ℤ :=
  if weekday today = 5 then today - 1
  else if weekday today = 6 then today - 2
  else today

theorem weekday_nonneg (d : ℤ) : 0 ≤ weekday d :=
  Int.emod_nonneg _ (by norm_num)

theorem weekday_lt_seven (d : ℤ) : weekday d < 7 :=
  Int.emod_lt_of_pos _ (by norm_num)

theorem weekday_sub_one (d : ℤ) (h : weekday d = 5) : weekday (d - 1) = 4 := by
  unfold weekday at *
  omega

theorem weekday_sub_two (d : ℤ) (h : weekday d = 6) : weekday (d - 2) = 4 := by
  unfold weekday at *
  omega

/-- A per-ticker decision of the sync code: either no network call, or a
provider download over `[start, endExclusive)`. -/
inductive FetchPlan where
  | skip : FetchPlan
  | fetch (start endExclusive : ℤ) : FetchPlan
deriving DecidableEq, Repr

/-- The fetch-range decision of `run_crawler` (`src/data/stock_crawler.py`,
lines 88-112): skip when `max_date >= latest_trading_day`; otherwise start
at `max_date + 1` (or `oldest_start` when no data exists) and request an
exclusive end one day past `latest_trading_day`. -/
def crawler_fetch_plan (max_date : Option ℤ) (oldest_start latest_trading_day : ℤ) :
    FetchPlan :=
  match max_date with
  | some m =>
    if m ≥ latest_trading_day then .skip
    else
      let fetch_start := m + 1
      if fetch_start > latest_trading_day then .skip
      else .fetch fetch_start (latest_trading_day + 1)
  | none =>
    let fetch_start := oldest_start
    if fetch_start > latest_trading_day then .skip
    else .fetch fetch_start (latest_trading_day + 1)

/-- The fetch-range decision of `get_stock_data` (`src/data/stock.py`,
lines 102-111): with `last_db_date` the last stored date (or
`start_date - 1` when the store holds nothing), fetch
`[last_db_date + 1, latest + 1)` whenever `last_db_date < latest`. -/
def stock_fetch_plan (last_db_date : Option ℤ) (start_date latest : ℤ) : FetchPlan :=
  let last := match last_db_date with
    | some d => d
    | none => start_date - 1
  if last < latest then .fetch (last + 1) (latest + 1) else .skip

/-! ## Persistent store (`src/db/client.py`) -/

/-- One OHLCV bar as handed to `upsert_history` (dataframe row: index date
plus Open/High/Low/Close/Volume columns). -/
structure Bar where
  date : ℤ
  open_ : ℚ
  high : ℚ
  low : ℚ
  close : ℚ
  volume : ℤ
deriving DecidableEq, Repr

/-- One row of the `market_history` table
(`ticker, date, open, high, low, close, volume`, primary key (ticker, date)). -/
structure Row where
  ticker : String
  date : ℤ
  open_ : ℚ
  high : ℚ
  low : ℚ
  close : ℚ
  volume : ℤ
deriving DecidableEq, Repr

/-- The `market_history` table, as the list of its rows. -/
abbrev Store := List Row

/-- Whether the table holds a row with primary key `(t, d)`. -/
def hasKey (s : Store) (t : String) (d : ℤ) : Bool :=
  s.any fun r => r.ticker == t && r.date == d

/-- Number of rows with primary key `(t, d)` (the primary-key invariant
says this is at most 1). -/
def countKey (s : Store) (t : String) (d : ℤ) : ℕ :=
  (s.filter fun r => r.ticker == t && r.date == d).length

/-- One row of DuckDB's `INSERT OR IGNORE`: the row is appended unless a
row with the same `(ticker, date)` primary key already exists, in which
case it is silently skipped. -/
def insertOrIgnore (s : Store) (r : Row) : Store :=
  if hasKey s r.ticker r.date then s else s ++ [r]

/-- Row produced for ticker `t` from bar `b` by the canonical insert frame
built in `upsert_history`. -/
def rowOfBar (t : String) (b : Bar) : Row :=
  ⟨t, b.date, b.open_, b.high, b.low, b.close, b.volume⟩

/-- Method `MMBDb.upsert_history` (`src/db/client.py`, lines 95-156), successful
path: `INSERT OR IGNORE INTO market_history … SELECT … FROM tmp_history_ins`
applied row by row. An empty dataframe returns before touching the
connection. -/
def upsert_history (s : Store) (t : String) (bars : List Bar) : Store :=
  if bars.isEmpty then s
  else bars.foldl (fun acc b => insertOrIgnore acc (rowOfBar t b)) s

/-- Method `MMBDb.upsert_history` with its failure channel: `rejects` models the
underlying connection raising on the `INSERT` statement, in which case the
method logs and re-raises (`except … raise`) instead of returning normally.
The empty-dataframe guard (`if df.empty: return`) runs before any
connection use. -/
def upsert_history_run (rejects : Bool) (s : Store) (t : String) (bars : List Bar) :
    Except Unit Store :=
  if bars.isEmpty then .ok s
  else if rejects then .error ()
  else .ok (bars.foldl (fun acc b => insertOrIgnore acc (rowOfBar t b)) s)

/-- Method `MMBDb.get_max_date`: `SELECT MAX(date) FROM market_history WHERE
ticker = ?`, `none` when the ticker has no rows. -/
def get_max_date (s : Store) (t : String) : Option ℤ :=
  (s.filter fun r => r.ticker == t).foldl
    (fun acc r => match acc with
      | none => some r.date
      | some m => some (max m r.date)) none

/-- Modelled from the spec: `delete_before(cutoff_date)` / the
`db.delete_old_data(oldest_start)` call in `run_crawler`
(`src/data/stock_crawler.py`, line 83). No such method exists on `MMBDb`
in `src/db/client.py`; per spec §4.2 it "removes all rows with
`date < cutoff_date`, across all tickers". -/
def delete_old_data (s : Store) (cutoff : ℤ) : Store :=
  s.filter fun r => decide (cutoff ≤ r.date)

/-- The method names actually defined on class `MMBDb` in
`src/db/client.py`. -/
def mmb_db_method_names : List String :=
  ["__init__", "connect", "init_schema", "get_max_date", "upsert_history",
   "get_history", "get_recent_news", "insert_news"]

/-! ## Synchronizer (`src/data/stock.py` and `src/data/stock_crawler.py`) -/

/-- Insert a bar into a date-ascending list, keeping ascending order
(models the `ORDER BY date ASC` / `sort_values("date")` applied when
reading history back). -/
def insertByDate (b : Bar) : List Bar → List Bar
  | [] => [b]
  | c :: cs => if b.date ≤ c.date then b :: c :: cs else c :: insertByDate b cs

/-- Sort a list of bars by date, ascending. -/
def sortByDate (xs : List Bar) : List Bar :=
  xs.foldr insertByDate []

/-- Bar view of a `market_history` row (drop the ticker column). -/
def barOfRow (r : Row) : Bar :=
  ⟨r.date, r.open_, r.high, r.low, r.close, r.volume⟩

/-- Function `_history_from_db` (`src/data/stock.py`, lines 33-73): the ticker's
rows with `date >= start_date`, ascending by date, as a bar series. -/
def history_from_db (s : Store) (t : String) (start_date : ℤ) : List Bar :=
  sortByDate ((s.filter fun r => r.ticker == t && decide (start_date ≤ r.date)).map barOfRow)

/-- The pandas dedup step `hist[~hist.index.duplicated(keep=last)]`: for each date keep only
the last occurrence, preserving the order of the kept rows. -/
def dedupKeepLast (xs : List Bar) : List Bar :=
  xs.foldr (fun b acc => if acc.any (fun c => c.date == b.date) then acc else b :: acc) []

/-- A market-data provider: `yf.download(ticker, start, end)` with an
exclusive end bound, as a function from the requested interval to the
returned bars. -/
abbrev Provider := ℤ → ℤ → List Bar

/-- The per-ticker history path of `get_stock_data`
(`src/data/stock.py`, lines 92-146): read the store, and when the last
stored date falls short of the latest trading day, download the missing
tail, drop weekend rows, and concatenate in memory (deduplicating by
date, keep last). Returns the merged series, the store as left behind,
and whether a provider fetch was performed. The store is only ever read:
`get_stock_data` never calls `upsert_history`. -/
def get_stock_data_step (s : Store) (t : String) (start_date latest : ℤ)
    (provider : Provider) : List Bar × Store × Bool :=
  let hist := history_from_db s t start_date
  let last_db_date := match hist.getLast? with
    | some b => b.date
    | none => start_date - 1
  if last_db_date < latest then
    let dl := provider (last_db_date + 1) (latest + 1)
    let dl := dl.filter fun b => decide (weekday b.date < 5)
    let merged := dedupKeepLast (hist ++ dl)
    (merged, s, true)
  else (hist, s, false)

/-- The per-ticker body of `run_crawler` (`src/data/stock_crawler.py`,
lines 85-141): decide the fetch window from `get_max_date`, download it,
drop weekend rows, and upsert the result into the store when non-empty.
Returns the store as left behind. -/
def run_crawler_step (s : Store) (t : String) (oldest_start latest : ℤ)
    (provider : Provider) : Store :=
  match crawler_fetch_plan (get_max_date s t) oldest_start latest with
  | .skip => s
  | .fetch a b =>
    let data := (provider a b).filter fun r => decide (weekday r.date < 5)
    if data.isEmpty then s else upsert_history s t data

/-! ## Indicator engine (`src/analysis/indicators.py`)

The RSI computation runs on pandas float series, where dividing by zero
produces ±infinity or NaN rather than raising; `FVal` carries exactly that
extended arithmetic (exact rationals plus `inf`, `neginf`, `nan`). -/

/-- A pandas float value: a finite (exact rational) number, ±infinity,
or NaN. -/
inductive FVal where
  | fin (q : ℚ) : FVal
  | inf : FVal
  | neginf : FVal
  | nan : FVal
deriving DecidableEq, Repr

namespace FVal

/-- IEEE addition on the fragment reachable here (no `inf + neginf`
arises in the RSI computation; it is mapped to NaN as IEEE does). -/
def add : FVal → FVal → FVal
  | fin a, fin b => fin (a + b)
  | fin _, inf => inf
  | inf, fin _ => inf
  | fin _, neginf => neginf
  | neginf, fin _ => neginf
  | inf, inf => inf
  | neginf, neginf => neginf
  | inf, neginf => nan
  | neginf, inf => nan
  | nan, _ => nan
  | _, nan => nan

/-- IEEE subtraction (via the cases needed here). -/
def sub : FVal → FVal → FVal
  | fin a, fin b => fin (a - b)
  | fin _, inf => neginf
  | fin _, neginf => inf
  | inf, fin _ => inf
  | neginf, fin _ => neginf
  | inf, neginf => inf
  | neginf, inf => neginf
  | inf, inf => nan
  | neginf, neginf => nan
  | nan, _ => nan
  | _, nan => nan

/-- IEEE division: a nonzero finite numerator over (positive) zero gives a
signed infinity, `0/0` gives NaN, a finite numerator over an infinity
gives zero, and NaN propagates. -/
def div : FVal → FVal → FVal
  | fin a, fin b =>
    if b = 0 then
      if a = 0 then nan else if 0 < a then inf else neginf
    else fin (a / b)
  | fin _, inf => fin 0
  | fin _, neginf => fin 0
  | inf, fin b => if 0 ≤ b then inf else neginf
  | neginf, fin b => if 0 ≤ b then neginf else inf
  | inf, inf => nan
  | inf, neginf => nan
  | neginf, inf => nan
  | neginf, neginf => nan
  | nan, _ => nan
  | _, nan => nan

end FVal

/-- The pandas delta series `data[Close].diff()`: NaN at position 0, then successive
differences. -/
def diff (xs : List ℚ) : List FVal :=
  (List.range xs.length).map fun i =>
    if i = 0 then .nan else .fin (xs.getD i 0 - xs.getD (i - 1) 0)

/-- The pandas rolling mean `series.rolling(window=w).mean()` on an all-finite series: NaN until
the window is full, then the arithmetic mean of the trailing `w` values. -/
def rollingMean (xs : List ℚ) (w : ℕ) : List FVal :=
  (List.range xs.length).map fun i =>
    if i + 1 < w then .nan
    else .fin (((xs.take (i + 1)).drop (i + 1 - w)).sum / (w : ℚ))

/-- The final RSI formula applied to one (gain-average, loss-average)
pair: `rs = gain / loss; rsi = 100 - (100 / (1 + rs))`. -/
def rsi_of (gain loss : FVal) : FVal :=
  FVal.sub (.fin 100) (FVal.div (.fin 100) (FVal.add (.fin 1) (FVal.div gain loss)))

/-- Function `calculate_rsi` (`src/analysis/indicators.py`, lines 4-15): deltas of
the close series, clipped into gains and losses (`delta.where(delta > 0, 0)`
turns the leading NaN delta into 0, since `NaN > 0` is false), both
averaged over a `window`-period rolling window, then combined by
`100 - 100/(1 + gain/loss)`. -/
def calculate_rsi (closes : List ℚ) (window : ℕ) : List FVal :=
  let delta := diff closes
  let gain := delta.map fun d => match d with
    | .fin q => if 0 < q then q else 0
    | _ => 0
  let loss := delta.map fun d => match d with
    | .fin q => if q < 0 then -q else 0
    | _ => 0
  List.zipWith rsi_of (rollingMean gain window) (rollingMean loss window)

/-! ## Signal classifier (`src/analysis/signals.py`)

Indicator cells are `Option ℚ`: `none` models a NaN cell (`pd.notna` is
`Option.isSome`, and any float comparison against NaN is false). -/

/-- One row of the indicator dataframe, restricted to the columns
`generate_signals` reads. -/
structure IndicatorRow where
  close : Option ℚ
  sma_50 : Option ℚ
  sma_200 : Option ℚ
  rsi : Option ℚ
  bb_bandwidth : Option ℚ
deriving DecidableEq, Repr

/-- The indicator dataframe as seen by `generate_signals`: its rows plus
whether an `RSI` column exists at all (`'RSI' not in df`). -/
structure IndicatorFrame where
  rows : List IndicatorRow
  has_rsi_col : Bool
deriving DecidableEq, Repr

/-- Float `<` under NaN semantics: false whenever either side is NaN. -/
def optLt (a b : Option ℚ) : Bool :=
  match a, b with
  | some x, some y => decide (x < y)
  | _, _ => false

/-- Float `>` under NaN semantics: false whenever either side is NaN. -/
def optGt (a b : Option ℚ) : Bool :=
  match a, b with
  | some x, some y => decide (y < x)
  | _, _ => false

/-- The pandas expression `df[BB_Bandwidth].rolling(window=20).mean().iloc[-1]`: defined only
when the series has at least `w` rows and the trailing `w` cells are all
non-NaN (pandas counts non-NaN observations against `min_periods = w`). -/
def rolling_mean_last (xs : List (Option ℚ)) (w : ℕ) : Option ℚ :=
  if xs.length < w then none
  else
    let win := xs.drop (xs.length - w)
    if win.all Option.isSome then some ((win.filterMap id).sum / (w : ℚ)) else none

/-- The label triple returned by `generate_signals`. -/
structure Signals where
  Trend : String
  Momentum : String
  Volatility : String
deriving DecidableEq, Repr

/-- The fallback row `List.getLastD` needs; `generate_signals` only reads
it behind the non-empty guard. -/
def blankRow : IndicatorRow := ⟨none, none, none, none, none⟩

/-- Function `generate_signals` (`src/analysis/signals.py`): early `Unknown` triple
for an empty frame or a missing `RSI` column; otherwise the trend cascade
on `Close`/`SMA_50`/`SMA_200` (run only when both SMAs are non-NaN, else
left at its `"Neutral"` initialisation), the RSI momentum cascade, and the
Bollinger-bandwidth volatility comparison. -/
def generate_signals (df : IndicatorFrame) : Signals :=
  if df.rows.isEmpty || !df.has_rsi_col then ⟨"Unknown", "Unknown", "Unknown"⟩
  else
    let latest := df.rows.getLastD blankRow
    let trend :=
      if latest.sma_50.isSome && latest.sma_200.isSome then
        if optGt latest.close latest.sma_50 && optGt latest.sma_50 latest.sma_200 then
          "Bullish"
        else if optLt latest.close latest.sma_50 && optLt latest.sma_50 latest.sma_200 then
          "Bearish"
        else if optGt latest.close latest.sma_200 then "Leaning Bullish"
        else if optLt latest.close latest.sma_200 then "Leaning Bearish"
        else "Neutral"
      else "Neutral"
    let momentum :=
      match latest.rsi with
      | none => "Neutral"
      | some r =>
        if 70 < r then "Overbought"
        else if r < 30 then "Oversold"
        else if 60 < r then "Strong"
        else if r < 40 then "Weak"
        else "Neutral"
    let current_width := latest.bb_bandwidth
    let avg_width := rolling_mean_last (df.rows.map fun r => r.bb_bandwidth) 20
    let volatility :=
      match current_width, avg_width with
      | some c, some a =>
        if a * (3 / 2 : ℚ) < c then "Elevated"
        else if c < a * (7 / 10 : ℚ) then "Compressed"
        else "Normal"
      | _, _ => "Normal"
    ⟨trend, momentum, volatility⟩

/-! ## Claims -/

/-- C5: `latest_trading_day` maps every Monday-through-Friday timestamp to
its own date, every Saturday to the preceding day (a Friday), and every
Sunday two days back (a Friday); it is a total function with no error
conditions. -/
theorem c5_latest_trading_day (d : ℤ) :
    (weekday d ≤ 4 → get_latest_trading_day d = d) ∧
    (weekday d = 5 → get_latest_trading_day d = d - 1 ∧ weekday (d - 1) = 4) ∧
    (weekday d = 6 → get_latest_trading_day d = d - 2 ∧ weekday (d - 2) = 4) := by
  unfold get_latest_trading_day
  refine ⟨fun h => ?_, fun h => ⟨?_, weekday_sub_one d h⟩,
    fun h => ⟨?_, weekday_sub_two d h⟩⟩
  · rw [if_neg (by omega), if_neg (by omega)]
  · rw [if_pos h]
  · rw [if_neg (by omega), if_pos h]

/-- Witness for C5 at day 2 (1970-01-03, a Saturday). -/
theorem c5_latest_trading_day_witness :
    get_latest_trading_day 2 = 2 - 1 ∧ weekday (2 - 1) = 4 :=
  (c5_latest_trading_day 2).2.1 (by decide)

/-- C1: both sync paths skip the provider when the stored `max_date`
reaches the latest trading day, and otherwise request exactly the missing
interval, starting at `max_date + 1` (or the window start when no data is
stored) with an exclusive end one day past the latest trading day — never
the full historical window. -/
theorem c1_gap_fill_plan (m oldest latest : ℤ) (h : oldest ≤ latest) :
    (latest ≤ m → crawler_fetch_plan (some m) oldest latest = .skip) ∧
    (m < latest → crawler_fetch_plan (some m) oldest latest = .fetch (m + 1) (latest + 1)) ∧
    crawler_fetch_plan none oldest latest = .fetch oldest (latest + 1) ∧
    (latest ≤ m → stock_fetch_plan (some m) oldest latest = .skip) ∧
    (m < latest → stock_fetch_plan (some m) oldest latest = .fetch (m + 1) (latest + 1)) ∧
    stock_fetch_plan none oldest latest = .fetch oldest (latest + 1) := by
  unfold crawler_fetch_plan stock_fetch_plan
  refine ⟨fun hm => ?_, fun hm => ?_, ?_, fun hm => ?_, fun hm => ?_, ?_⟩
  · simp only
    rw [if_pos (by omega)]
  · simp only
    rw [if_neg (by omega), if_neg (by omega)]
  · simp only
    rw [if_neg (by omega)]
  · simp only
    rw [if_neg (by omega)]
  · simp only
    rw [if_pos (by omega)]
  · simp only
    rw [if_pos (by omega)]
    congr 1
    omega

/-- Witness for C1 with stored data through day 3 and latest trading
day 5. -/
theorem c1_gap_fill_plan_witness :
    crawler_fetch_plan (some 3) 0 5 = .fetch (3 + 1) (5 + 1) :=
  (c1_gap_fill_plan 3 0 5 (by decide)).2.1 (by decide)

/-- C10: an empty batch is a no-op for `upsert_history`: it returns
normally (even on a rejecting connection) and the store is unchanged. -/
theorem c10_empty_upsert_noop (rejects : Bool) (s : Store) (t : String) :
    upsert_history_run rejects s t [] = .ok s ∧ upsert_history s t [] = s := by
  exact ⟨rfl, rfl⟩

/-- C9: a rejected non-empty batch makes `upsert_history` raise — the
error is surfaced to the caller, never a silent normal return. -/
theorem c9_write_error_surfaced (s : Store) (t : String) (bars : List Bar)
    (h : bars ≠ []) : upsert_history_run true s t bars = .error () := by
  cases bars with
  | nil => exact absurd rfl h
  | cons a l => rfl

/-- Witness for C9 on a one-bar batch. -/
theorem c9_write_error_surfaced_witness :
    upsert_history_run true [] "AAPL" [⟨0, 1, 1, 1, 1, 1⟩] = .error () :=
  c9_write_error_surfaced [] "AAPL" [⟨0, 1, 1, 1, 1, 1⟩] (by decide)

/-- C8: class `MMBDb` defines no `delete_old_data` (nor `delete_before`)
method, although `run_crawler` calls `db.delete_old_data(oldest_start)`;
the spec-modelled retention sweep does leave no row with `date < cutoff`. -/
theorem c8_retention_sweep :
    "delete_old_data" ∉ mmb_db_method_names ∧
    "delete_before" ∉ mmb_db_method_names ∧
    ∀ (s : Store) (cutoff : ℤ),
      (delete_old_data s cutoff).all (fun r => decide (cutoff ≤ r.date)) = true := by
  refine ⟨by decide, by decide, fun s cutoff => ?_⟩
  refine List.all_eq_true.mpr fun r hr => ?_
  unfold delete_old_data at hr
  exact (List.mem_filter.mp hr).2

theorem countKey_append_single (s : Store) (r : Row) (t : String) (d : ℤ) :
    countKey (s ++ [r]) t d =
      countKey s t d + (if r.ticker == t && r.date == d then 1 else 0) := by
  unfold countKey
  rw [List.filter_append, List.length_append]
  by_cases h : (r.ticker == t && r.date == d) = true
  · rw [if_pos h]
    simp [List.filter, h]
  · rw [if_neg h]
    rw [Bool.not_eq_true] at h
    simp [List.filter, h]

theorem hasKey_false_iff_countKey_zero (s : Store) (t : String) (d : ℤ) :
    hasKey s t d = false ↔ countKey s t d = 0 := by
  unfold hasKey countKey
  rw [List.length_eq_zero, List.filter_eq_nil_iff]
  constructor
  · intro h r hr
    have := List.any_eq_false.mp h r hr
    simpa using this
  · intro h
    refine List.any_eq_false.mpr fun r hr => ?_
    simpa using h r hr

theorem insertOrIgnore_of_hasKey (s : Store) (r : Row)
    (h : hasKey s r.ticker r.date = true) : insertOrIgnore s r = s := by
  unfold insertOrIgnore
  rw [if_pos h]

theorem hasKey_insertOrIgnore_self (s : Store) (r : Row) :
    hasKey (insertOrIgnore s r) r.ticker r.date = true := by
  unfold insertOrIgnore
  by_cases h : hasKey s r.ticker r.date = true
  · rw [if_pos h]
    exact h
  · rw [if_neg h]
    unfold hasKey
    refine List.any_eq_true.mpr ⟨r, List.mem_append_right _ (List.mem_singleton.mpr rfl), ?_⟩
    simp

/-- C2: the store's upsert has insert-or-ignore semantics — upserting the
same bar twice onto a store without that key leaves exactly one row for
its `(ticker, date)`, and upserting a bar whose key already exists leaves
the store (in particular the existing row's values) unchanged. -/
theorem c2_idempotent_upsert (s : Store) (t : String) (b : Bar) :
    (countKey s t b.date = 0 →
      countKey (upsert_history (upsert_history s t [b]) t [b]) t b.date = 1) ∧
    (hasKey s t b.date = true → upsert_history s t [b] = s) := by
  have hone : ∀ u : Store, upsert_history u t [b] = insertOrIgnore u (rowOfBar t b) := by
    intro u
    rfl
  constructor
  · intro h0
    have hno : hasKey s t b.date = false := (hasKey_false_iff_countKey_zero s t b.date).mpr h0
    rw [hone, hone]
    have hfirst : insertOrIgnore s (rowOfBar t b) = s ++ [rowOfBar t b] := by
      unfold insertOrIgnore
      rw [if_neg]
      simp [rowOfBar, hno]
    have hkey2 : hasKey (insertOrIgnore s (rowOfBar t b)) t b.date = true := by
      have := hasKey_insertOrIgnore_self s (rowOfBar t b)
      simpa [rowOfBar] using this
    rw [insertOrIgnore_of_hasKey _ _ (by simpa [rowOfBar] using hkey2)]
    rw [hfirst, countKey_append_single, h0]
    simp [rowOfBar]
  · intro h
    rw [hone]
    exact insertOrIgnore_of_hasKey s (rowOfBar t b) (by simpa [rowOfBar] using h)

/-- Witness for C2: a double upsert of one bar onto the empty store, and
an upsert onto a store already holding the key. -/
theorem c2_idempotent_upsert_witness :
    countKey (upsert_history (upsert_history [] "AAPL" [⟨0, 1, 2, 1, 2, 5⟩]) "AAPL"
      [⟨0, 1, 2, 1, 2, 5⟩]) "AAPL" (0 : ℤ) = 1 ∧
    upsert_history [rowOfBar "AAPL" ⟨0, 1, 2, 1, 2, 5⟩] "AAPL" [⟨0, 9, 9, 9, 9, 9⟩] =
      [rowOfBar "AAPL" ⟨0, 1, 2, 1, 2, 5⟩] :=
  ⟨(c2_idempotent_upsert [] "AAPL" ⟨0, 1, 2, 1, 2, 5⟩).1 (by decide),
   (c2_idempotent_upsert [rowOfBar "AAPL" ⟨0, 1, 2, 1, 2, 5⟩] "AAPL" ⟨0, 9, 9, 9, 9, 9⟩).2
     (by decide)⟩

/-- A one-row indicator frame whose latest row has RSI 50 but an undefined
SMA_50. -/
def c3_frame : IndicatorFrame := ⟨[⟨some 10, none, some 5, some 50, none⟩], true⟩

/-- C3 counterexample: on a series whose latest row has an undefined
SMA_50 (and a present RSI column), the classifier returns Trend
`"Neutral"`, not `"Unknown"` as the claim states. -/
theorem c3_trend_undefined_counterexample :
    (generate_signals c3_frame).Trend = "Neutral" ∧
    (generate_signals c3_frame).Trend ≠ "Unknown" := by
  decide

/-- C3 amended: for a non-empty frame with an RSI column whose latest row
has an undefined SMA_50 or SMA_200, the Trend label is `"Neutral"` (the
`"Unknown"` triple arises only for an empty frame or a missing RSI
column). -/
theorem c3_trend_undefined_neutral (df : IndicatorFrame)
    (h1 : df.rows ≠ []) (h2 : df.has_rsi_col = true)
    (h3 : (df.rows.getLastD blankRow).sma_50 = none ∨
      (df.rows.getLastD blankRow).sma_200 = none) :
    (generate_signals df).Trend = "Neutral" := by
  unfold generate_signals
  have he : df.rows.isEmpty = false := by
    cases hr : df.rows with
    | nil => exact absurd hr h1
    | cons a l => rfl
  rw [he, h2]
  simp only [List.getLastD_eq_getLast?] at h3
  rcases h3 with h | h <;> simp [h]

/-- Witness for C3 amended, on the same frame as the counterexample. -/
theorem c3_trend_undefined_neutral_witness :
    (generate_signals ⟨[⟨some 10, none, some 5, some 50, none⟩], true⟩).Trend = "Neutral" :=
  c3_trend_undefined_neutral ⟨[⟨some 10, none, some 5, some 50, none⟩], true⟩
    (by decide) rfl (Or.inl rfl)

/-- A one-row indicator frame whose latest row has RSI exactly 70. -/
def c4_frame : IndicatorFrame := ⟨[⟨some 10, none, none, some 70, none⟩], true⟩

/-- C4 counterexample: RSI exactly 70 falls through the strict `>70` test
into the `>60` band, so the classifier returns Momentum `"Strong"`, not
`"Neutral"` as the claim states. -/
theorem c4_momentum_70_counterexample :
    (generate_signals c4_frame).Momentum = "Strong" ∧
    (generate_signals c4_frame).Momentum ≠ "Neutral" := by
  decide

/-- C4 amended: the Momentum label follows the strict cascade
`RSI>70 → Overbought`, `RSI<30 → Oversold`, `RSI>60 → Strong`,
`RSI<40 → Weak`, else `Neutral`; in particular RSI = 70 gives `"Strong"`
(not `"Neutral"`) and RSI = 71 gives `"Overbought"`. -/
theorem c4_momentum_cascade (df : IndicatorFrame) (r : ℚ)
    (h1 : df.rows ≠ []) (h2 : df.has_rsi_col = true)
    (h3 : (df.rows.getLastD blankRow).rsi = some r) :
    (generate_signals df).Momentum =
      (if 70 < r then "Overbought"
       else if r < 30 then "Oversold"
       else if 60 < r then "Strong"
       else if r < 40 then "Weak"
       else "Neutral") := by
  unfold generate_signals
  have he : df.rows.isEmpty = false := by
    cases hr : df.rows with
    | nil => exact absurd hr h1
    | cons a l => rfl
  rw [he, h2]
  simp only [List.getLastD_eq_getLast?] at h3
  simp [h3]

/-- Witness for C4 amended at RSI 70 and RSI 71. -/
theorem c4_momentum_cascade_witness :
    (generate_signals ⟨[⟨some 10, none, none, some 70, none⟩], true⟩).Momentum =
      (if (70 : ℚ) < 70 then "Overbought"
       else if (70 : ℚ) < 30 then "Oversold"
       else if (60 : ℚ) < 70 then "Strong"
       else if (70 : ℚ) < 40 then "Weak"
       else "Neutral") ∧
    (generate_signals ⟨[⟨some 10, none, none, some 71, none⟩], true⟩).Momentum =
      (if (70 : ℚ) < 71 then "Overbought"
       else if (71 : ℚ) < 30 then "Oversold"
       else if (60 : ℚ) < 71 then "Strong"
       else if (71 : ℚ) < 40 then "Weak"
       else "Neutral") :=
  ⟨c4_momentum_cascade ⟨[⟨some 10, none, none, some 70, none⟩], true⟩ 70 (by decide) rfl rfl,
   c4_momentum_cascade ⟨[⟨some 10, none, none, some 71, none⟩], true⟩ 71 (by decide) rfl rfl⟩

theorem hasKey_insertOrIgnore_mono (s : Store) (r : Row) (t : String) (d : ℤ)
    (h : hasKey s t d = true) : hasKey (insertOrIgnore s r) t d = true := by
  unfold insertOrIgnore
  by_cases hk : hasKey s r.ticker r.date = true
  · rw [if_pos hk]
    exact h
  · rw [if_neg hk]
    unfold hasKey at h ⊢
    obtain ⟨x, hx, hp⟩ := List.any_eq_true.mp h
    exact List.any_eq_true.mpr ⟨x, List.mem_append_left _ hx, hp⟩

theorem hasKey_upsert_foldl_mono (bars : List Bar) (s : Store) (t u : String) (d : ℤ)
    (h : hasKey s u d = true) :
    hasKey (bars.foldl (fun acc b => insertOrIgnore acc (rowOfBar t b)) s) u d = true := by
  induction bars generalizing s with
  | nil => exact h
  | cons b rest ih =>
    exact ih _ (hasKey_insertOrIgnore_mono s (rowOfBar t b) u d h)

theorem hasKey_upsert_foldl (t : String) (b : Bar) :
    ∀ (bars : List Bar) (s : Store), b ∈ bars →
      hasKey (bars.foldl (fun acc c => insertOrIgnore acc (rowOfBar t c)) s) t b.date = true
  | [], _, hb => absurd hb (List.not_mem_nil b)
  | a :: rest, s, hb => by
    rcases List.mem_cons.mp hb with heq | hmem
    · subst heq
      simp only [List.foldl_cons]
      exact hasKey_upsert_foldl_mono rest _ t t b.date
        (by simpa [rowOfBar] using hasKey_insertOrIgnore_self s (rowOfBar t b))
    · simp only [List.foldl_cons]
      exact hasKey_upsert_foldl t b rest _ hmem

theorem hasKey_upsert_history (s : Store) (t : String) (bars : List Bar) (b : Bar)
    (hb : b ∈ bars) : hasKey (upsert_history s t bars) t b.date = true := by
  have hne : bars.isEmpty = false := by
    cases bars with
    | nil => cases hb
    | cons a l => rfl
  unfold upsert_history
  rw [hne]
  simp only [Bool.false_eq_true, if_false]
  exact hasKey_upsert_foldl t b bars s hb

/-- C6 counterexample: with one stored bar at day 0 and latest trading
day 1, `get_stock_data` performs a provider fetch, returns the merged
series containing the fetched bar — and leaves the store exactly as it
was, with no row for the fetched date: the fetched bars are not
persisted. -/
theorem c6_no_upsert_counterexample :
    (get_stock_data_step [⟨"A", 0, 1, 1, 1, 1, 10⟩] "A" 0 1
      (fun a b => if a ≤ 1 ∧ 1 < b then [⟨1, 2, 2, 2, 2, 20⟩] else [])).2.2 = true ∧
    (⟨1, 2, 2, 2, 2, 20⟩ : Bar) ∈
      (get_stock_data_step [⟨"A", 0, 1, 1, 1, 1, 10⟩] "A" 0 1
        (fun a b => if a ≤ 1 ∧ 1 < b then [⟨1, 2, 2, 2, 2, 20⟩] else [])).1 ∧
    (get_stock_data_step [⟨"A", 0, 1, 1, 1, 1, 10⟩] "A" 0 1
      (fun a b => if a ≤ 1 ∧ 1 < b then [⟨1, 2, 2, 2, 2, 20⟩] else [])).2.1 =
      [⟨"A", 0, 1, 1, 1, 1, 10⟩] ∧
    hasKey [⟨"A", 0, 1, 1, 1, 1, 10⟩] "A" 1 = false := by
  decide

/-- C6 amended: the series-returning sync path (`get_stock_data`) merges
fetched rows in memory only and always leaves the store unchanged;
persisting fetched bars is done by the separate crawler (`run_crawler`),
whose per-ticker step leaves every fetched weekday bar's key present in
the store. -/
theorem c6_persistence_split (s : Store) (t : String) (sd l oldest : ℤ) (p : Provider) :
    (get_stock_data_step s t sd l p).2.1 = s ∧
    (∀ a b, crawler_fetch_plan (get_max_date s t) oldest l = .fetch a b →
      ∀ r ∈ (p a b).filter (fun r => decide (weekday r.date < 5)),
        hasKey (run_crawler_step s t oldest l p) t r.date = true) := by
  constructor
  · simp only [get_stock_data_step]
    split <;> rfl
  · intro a b hplan r hr
    unfold run_crawler_step
    rw [hplan]
    simp only
    have hne : ((p a b).filter fun r => decide (weekday r.date < 5)).isEmpty = false := by
      cases hcase : (p a b).filter fun r => decide (weekday r.date < 5) with
      | nil =>
        rw [hcase] at hr
        cases hr
      | cons x xs => rfl
    rw [hne]
    simp only [Bool.false_eq_true, if_false]
    exact hasKey_upsert_history s t _ r hr

/-- Witness for C6 amended, on the counterexample's store and provider. -/
theorem c6_persistence_split_witness :
    hasKey (run_crawler_step [⟨"A", 0, 1, 1, 1, 1, 10⟩] "A" 0 1
      (fun a b => if a ≤ 1 ∧ 1 < b then [⟨1, 2, 2, 2, 2, 20⟩] else [])) "A" 1 = true :=
  (c6_persistence_split [⟨"A", 0, 1, 1, 1, 1, 10⟩] "A" 0 1 0
      (fun a b => if a ≤ 1 ∧ 1 < b then [⟨1, 2, 2, 2, 2, 20⟩] else [])).2
    1 2 (by decide) ⟨1, 2, 2, 2, 2, 20⟩ (by decide)

/-- A fully flat close series (20 identical closes). -/
def c7_flat_closes : List ℚ := List.replicate 20 100

/-- A strictly rising close series of 15 values. -/
def c7_rising_closes : List ℚ := (List.range 15).map fun i => (i : ℚ)

/-- C7 counterexample: on a fully flat series both rolling averages are
zero, so `rs = 0/0` is NaN and the latest RSI is NaN — not the claimed
saturation at 100. -/
theorem c7_rsi_flat_counterexample :
    (calculate_rsi c7_flat_closes 14).getLastD .nan = .nan ∧
    (calculate_rsi c7_flat_closes 14).getLastD .nan ≠ .fin 100 := by
  have h : (calculate_rsi c7_flat_closes 14).getLastD .nan = .nan := by
    norm_num [c7_flat_closes, calculate_rsi, diff, rollingMean, rsi_of, FVal.add,
      FVal.sub, FVal.div, List.getLastD, List.range_succ, List.zipWith, List.replicate]
  refine ⟨h, ?_⟩
  rw [h]
  decide

/-- C7 amended: when the 14-period average loss is zero and the average
gain is positive (gains but no losses), the division by zero makes RSI
saturate at 100; when both averages are zero (fully flat window) `0/0`
propagates as NaN, so the RSI is undefined rather than 100. A strictly
rising 15-close series indeed ends with RSI exactly 100. -/
theorem c7_rsi_division_by_zero (g : ℚ) (hg : 0 < g) :
    rsi_of (.fin g) (.fin 0) = .fin 100 ∧
    rsi_of (.fin 0) (.fin 0) = .nan ∧
    (calculate_rsi c7_rising_closes 14).getLastD .nan = .fin 100 := by
  refine ⟨?_, by decide, ?_⟩
  · have h1 : FVal.div (.fin g) (.fin 0) = .inf := by
      simp only [FVal.div]
      rw [if_pos trivial, if_neg hg.ne', if_pos hg]
    unfold rsi_of
    rw [h1]
    show FVal.sub (.fin 100) (FVal.div (.fin 100) (FVal.add (.fin 1) .inf)) = .fin 100
    simp [FVal.add, FVal.div, FVal.sub]
  · norm_num [c7_rising_closes, calculate_rsi, diff, rollingMean, rsi_of, FVal.add,
      FVal.sub, FVal.div, List.getLastD, List.range_succ, List.zipWith]

/-- Witness for C7 amended at gain average 1. -/
theorem c7_rsi_division_by_zero_witness :
    rsi_of (.fin 1) (.fin 0) = .fin 100 ∧
    rsi_of (.fin 0) (.fin 0) = .nan ∧
    (calculate_rsi c7_rising_closes 14).getLastD .nan = .fin 100 :=
  c7_rsi_division_by_zero 1 (by norm_num)

end MMB
